import Mathlib

/-
Verification of the operand/constant evaluation core of the booleano-based
Stock_Backtester expression engine
(src/booleano/operations/operands/constants.py).

Python machine model:
- Python values are modelled by `PyValue`; Python floats are modelled as exact
  rationals (`Rat`), which is faithful for every value any claim exercises.
- Python exceptions are modelled by `PyErr`; fallible methods return
  `Except PyErr _`.
- `float(v)`, `int(v)` and `str(v)` are modelled by `pyFloatOf`, `pyIntOf` and
  `pyStrOf`.  `float`/`int` raise `TypeError` on non-string non-numeric input
  and `ValueError` on unparsable strings, exactly as in CPython (leading and
  trailing whitespace stripping and exponent literals are not modelled; no
  claim exercises them).
-/

namespace Booleano

/-- Model of the Python values the operand methods receive and produce. -/
inductive PyValue where
  | none : PyValue
  | bool : Bool → PyValue
  | int : Int → PyValue
  | float : Rat → PyValue
  | str : String → PyValue
  | list : List PyValue → PyValue

/-- Model of the Python exceptions the source raises.  `invalidOperation`
carries the offending value (the source interpolates it into the message). -/
inductive PyErr where
  | valueError : PyErr
  | typeError : PyErr
  | invalidOperation : PyValue → PyErr
  | assertionError : String → PyErr

/-- Value of a digit list read in base 10 (helper for the string parsers). -/
def digitsToNat (ds : List Char) : Nat :=
  ds.foldl (fun a c => 10 * a + (c.toNat - 48)) 0

/-- Parse an unsigned decimal literal (digits, optional fraction part), as
accepted by Python `float`. -/
def parseUnsignedFloat (cs : List Char) : Option Rat :=
  let ip := cs.takeWhile Char.isDigit
  let r1 := cs.dropWhile Char.isDigit
  match r1 with
  | '.' :: r2 =>
    if r2.all Char.isDigit ∧ ¬(ip.isEmpty ∧ r2.isEmpty) then
      some ((digitsToNat ip : Rat) + (digitsToNat r2 : Rat) / (10 : Rat) ^ r2.length)
    else Option.none
  | [] => if ip.isEmpty then Option.none else some (digitsToNat ip : Rat)
  | _ => Option.none

/-- Parse a signed decimal literal, as accepted by Python `float(str)`. -/
def parseSignedFloat : List Char → Option Rat
  | '-' :: rest => (parseUnsignedFloat rest).map (fun q => -q)
  | '+' :: rest => parseUnsignedFloat rest
  | cs => parseUnsignedFloat cs

/-- Parse a signed integer literal, as accepted by Python `int(str)`
(`int("2.5")` is a `ValueError`, matching CPython). -/
def parseSignedInt : List Char → Option Int
  | '-' :: rest =>
    if rest.isEmpty ∨ ¬rest.all Char.isDigit then Option.none
    else some (-(digitsToNat rest : Int))
  | '+' :: rest =>
    if rest.isEmpty ∨ ¬rest.all Char.isDigit then Option.none
    else some (digitsToNat rest : Int)
  | cs =>
    if cs.isEmpty ∨ ¬cs.all Char.isDigit then Option.none
    else some (digitsToNat cs : Int)

/-- Python `float(value)`: numbers and booleans convert, strings are parsed
(`ValueError` on failure), everything else is a `TypeError`. -/
def pyFloatOf : PyValue → Except PyErr Rat
  | PyValue.none => Except.error PyErr.typeError
  | PyValue.bool b => Except.ok (if b then 1 else 0)
  | PyValue.int n => Except.ok (n : Rat)
  | PyValue.float q => Except.ok q
  | PyValue.str s =>
    match parseSignedFloat s.data with
    | some q => Except.ok q
    | Option.none => Except.error PyErr.valueError
  | PyValue.list _ => Except.error PyErr.typeError

/-- Truncation toward zero of a rational, matching Python `int(float)`. -/
def ratTrunc (q : Rat) : Int := q.num.tdiv q.den

/-- Python `int(value)`. -/
def pyIntOf : PyValue → Except PyErr Int
  | PyValue.none => Except.error PyErr.typeError
  | PyValue.bool b => Except.ok (if b then 1 else 0)
  | PyValue.int n => Except.ok n
  | PyValue.float q => Except.ok (ratTrunc q)
  | PyValue.str s =>
    match parseSignedInt s.data with
    | some n => Except.ok n
    | Option.none => Except.error PyErr.valueError
  | PyValue.list _ => Except.error PyErr.typeError

/-- Python `str(value)`.  The non-integral float branch and the list branch
are stand-ins for CPython's repr (no claim evaluates them); the integral
float, int, bool, str and None branches match CPython exactly. -/
def pyStrOf : PyValue → String
  | PyValue.none => "None"
  | PyValue.bool b => if b then "True" else "False"
  | PyValue.int n => toString n
  | PyValue.float q =>
    if q.den = 1 then toString q.num ++ ".0"
    else toString q.num ++ "/" ++ toString q.den
  | PyValue.str s => s
  | PyValue.list _ => "[...]"

/-- Numeric view of a Python value (Python treats `bool` as numeric, so
`True == 1` and `1 == 1.0` hold across types). -/
def pyNumQ : PyValue → Option Rat
  | PyValue.bool b => some (if b then 1 else 0)
  | PyValue.int n => some (n : Rat)
  | PyValue.float q => some q
  | _ => Option.none

/-- Python `==` on values: numeric cross-type equality, structural equality
for strings and `None`.  List/list comparison (elementwise in Python) is not
modelled — no claim reaches it. -/
def pyValEq (a b : PyValue) : Bool :=
  match pyNumQ a, pyNumQ b with
  | some x, some y => x == y
  | _, _ =>
    match a, b with
    | PyValue.str s, PyValue.str t => s == t
    | PyValue.none, PyValue.none => true
    | _, _ => false

/-- Python iteration (`for x in value` / `set(value)`): lists yield their
elements, strings yield their characters, everything else is a `TypeError`. -/
def pyIter : PyValue → Except PyErr (List PyValue)
  | PyValue.list xs => Except.ok xs
  | PyValue.str s => Except.ok (s.data.map (fun c => PyValue.str (String.mk [c])))
  | _ => Except.error PyErr.typeError

/-- Tokens of the restricted arithmetic grammar. -/
inductive ATok where
  | num : Rat → ATok
  | plus : ATok
  | minus : ATok
  | star : ATok
  | slash : ATok
  | dstar : ATok
  | lpar : ATok
  | rpar : ATok

/-- Characters the restricted numeric grammar may contain: digits, the dot of
a decimal literal, the operators, parentheses and blanks. -/
def allowedChar (c : Char) : Bool :=
  c == ' ' || c == '+' || c == '-' || c == '/' || c == '(' || c == ')' ||
    c == '*' || c.isDigit || c == '.'

/-- Read one numeric literal (digits with optional fraction) off the front of
the character stream. -/
def lexNumber (cs : List Char) : Option (Rat × List Char) :=
  match cs.dropWhile Char.isDigit with
  | '.' :: r2 =>
    if (cs.takeWhile Char.isDigit).isEmpty ∧ (r2.takeWhile Char.isDigit).isEmpty then
      Option.none
    else
      some ((digitsToNat (cs.takeWhile Char.isDigit) : Rat) +
        (digitsToNat (r2.takeWhile Char.isDigit) : Rat) /
          (10 : Rat) ^ (r2.takeWhile Char.isDigit).length,
        r2.dropWhile Char.isDigit)
  | r1 =>
    if (cs.takeWhile Char.isDigit).isEmpty then Option.none
    else some ((digitsToNat (cs.takeWhile Char.isDigit) : Rat), r1)

/-- Modelled from the spec: tokenizer of the restricted numeric evaluator
(`booleano.SafeEval.eval_expr`, a file of this repository that is not under
src/).  It accepts only numeric literals, `+ - * / ** ( )` and blanks; any
other character makes the whole tokenization fail.  `fuel` only bounds the
recursion; `tokenize` supplies enough for the whole input. -/
def tokenizeF : Nat → List Char → Option (List ATok)
  | _, [] => some []
  | 0, _ :: _ => Option.none
  | fuel + 1, c :: cs =>
    if c = ' ' then tokenizeF fuel cs
    else if c = '+' then (tokenizeF fuel cs).map (fun ts => ATok.plus :: ts)
    else if c = '-' then (tokenizeF fuel cs).map (fun ts => ATok.minus :: ts)
    else if c = '/' then (tokenizeF fuel cs).map (fun ts => ATok.slash :: ts)
    else if c = '(' then (tokenizeF fuel cs).map (fun ts => ATok.lpar :: ts)
    else if c = ')' then (tokenizeF fuel cs).map (fun ts => ATok.rpar :: ts)
    else if c = '*' then
      match cs with
      | '*' :: cs2 => (tokenizeF fuel cs2).map (fun ts => ATok.dstar :: ts)
      | _ => (tokenizeF fuel cs).map (fun ts => ATok.star :: ts)
    else if c.isDigit ∨ c = '.' then
      match lexNumber (c :: cs) with
      | some (q, rest) => (tokenizeF fuel rest).map (fun ts => ATok.num q :: ts)
      | Option.none => Option.none
    else Option.none

/-- Tokenize a character list of the restricted numeric grammar. -/
def tokenize (cs : List Char) : Option (List ATok) := tokenizeF cs.length cs

/-- Python `a ** b` on exact rationals: integral exponents are exact;
`0 ** negative` is a `ZeroDivisionError`; a fractional exponent yields an
irrational in general and is modelled as failure (no claim exercises it). -/
def qPow (b e : Rat) : Option Rat :=
  if e.den = 1 then
    if 0 ≤ e.num then some (b ^ e.num.toNat)
    else if b = 0 then Option.none
    else some ((b ^ (-e.num).toNat)⁻¹)
  else Option.none

mutual

/-- Modelled from the spec: restricted expression parser/evaluator, additive
level (`+`/`-`, left associative). -/
def parseExpr : Nat → List ATok → Option (Rat × List ATok)
  | 0, _ => Option.none
  | fuel + 1, ts =>
    match parseTerm fuel ts with
    | some (v, r) => parseExprRest fuel v r
    | Option.none => Option.none

/-- Additive-level continuation: fold further `+ term` / `- term` items. -/
def parseExprRest : Nat → Rat → List ATok → Option (Rat × List ATok)
  | 0, _, _ => Option.none
  | fuel + 1, acc, ATok.plus :: ts =>
    match parseTerm fuel ts with
    | some (v, r) => parseExprRest fuel (acc + v) r
    | Option.none => Option.none
  | fuel + 1, acc, ATok.minus :: ts =>
    match parseTerm fuel ts with
    | some (v, r) => parseExprRest fuel (acc - v) r
    | Option.none => Option.none
  | _ + 1, acc, ts => some (acc, ts)

/-- Multiplicative level (`*`/`/`, left associative). -/
def parseTerm : Nat → List ATok → Option (Rat × List ATok)
  | 0, _ => Option.none
  | fuel + 1, ts =>
    match parseUnary fuel ts with
    | some (v, r) => parseTermRest fuel v r
    | Option.none => Option.none

/-- Multiplicative-level continuation; division by zero fails
(`ZeroDivisionError` in Python). -/
def parseTermRest : Nat → Rat → List ATok → Option (Rat × List ATok)
  | 0, _, _ => Option.none
  | fuel + 1, acc, ATok.star :: ts =>
    match parseUnary fuel ts with
    | some (v, r) => parseTermRest fuel (acc * v) r
    | Option.none => Option.none
  | fuel + 1, acc, ATok.slash :: ts =>
    match parseUnary fuel ts with
    | some (v, r) => if v = 0 then Option.none else parseTermRest fuel (acc / v) r
    | Option.none => Option.none
  | _ + 1, acc, ts => some (acc, ts)

/-- Unary minus (binding looser than `**`, as in Python: `-2**2 = -4`). -/
def parseUnary : Nat → List ATok → Option (Rat × List ATok)
  | 0, _ => Option.none
  | fuel + 1, ATok.minus :: ts =>
    match parseUnary fuel ts with
    | some (v, r) => some (-v, r)
    | Option.none => Option.none
  | fuel + 1, ts => parsePower fuel ts

/-- Exponentiation (`**`, right associative, exponent may be signed). -/
def parsePower : Nat → List ATok → Option (Rat × List ATok)
  | 0, _ => Option.none
  | fuel + 1, ts =>
    match parseAtom fuel ts with
    | some (b, r) =>
      match r with
      | ATok.dstar :: r2 =>
        match parseUnary fuel r2 with
        | some (e, r3) =>
          match qPow b e with
          | some p => some (p, r3)
          | Option.none => Option.none
        | Option.none => Option.none
      | _ => some (b, r)
    | Option.none => Option.none

/-- Atoms: numeric literals and parenthesized expressions — no identifiers,
no calls, no attribute access, no statements. -/
def parseAtom : Nat → List ATok → Option (Rat × List ATok)
  | 0, _ => Option.none
  | _ + 1, ATok.num q :: ts => some (q, ts)
  | fuel + 1, ATok.lpar :: ts =>
    match parseExpr fuel ts with
    | some (v, ATok.rpar :: r2) => some (v, r2)
    | _ => Option.none
  | _, _ => Option.none

end

/-- Modelled from the spec: `booleano.SafeEval.eval_expr` (not under src/),
the restricted evaluator accepting only numeric literals, `+ - * / ** ( )`
and unary minus.  Tokenizes, parses and requires full consumption of the
input. -/
def safeEval (cs : List Char) : Option Rat :=
  match tokenize cs with
  | some ts =>
    match parseExpr (6 * (ts.length + 1)) ts with
    | some (q, []) => some q
    | _ => Option.none
  | Option.none => Option.none

/-- Python `str.replace(pat, rep)` on character lists: replace every
non-overlapping occurrence, scanning left to right.  `fuel` only bounds the
recursion (`replaceChars` supplies enough), and an empty pattern leaves the
string unchanged (Python's empty-pattern insertion never arises: all patterns
used are nonempty). -/
def replaceCharsF (pat rep : List Char) : Nat → List Char → List Char
  | _, [] => []
  | 0, s => s
  | fuel + 1, c :: cs =>
    if !pat.isEmpty && pat.isPrefixOf (c :: cs) then
      rep ++ replaceCharsF pat rep fuel ((c :: cs).drop pat.length)
    else
      c :: replaceCharsF pat rep fuel cs

/-- Python `s.replace(pat, rep)`. -/
def replaceChars (pat rep s : List Char) : List Char :=
  replaceCharsF pat rep s.length s

/-- The evaluation context passed into every operand method.  Its shape is
owned by the calling domain; the core only hands it through, so an opaque
mapping suffices. -/
def Context : Type := String → PyValue

/-- The constant operands of `constants.py`.  Each carries an `oid` modelling
Python object identity, so that two distinct objects with equal
`constant_value` are representable (`String` defines `__hash__ = id`
precisely so that such structurally equal strings stay distinct members of a
uniqueness set).  Python `==` between operands dispatches to the structural
equality inherited from the operand base class — see `opEq`.  A `Set`'s
`constant_value` is `set(items)`, modelled as the list of its stored
(pairwise distinct) member objects.
- `string oid s` : a `String` constant whose `constant_value` is `s`;
- `number oid q` : a `Number` constant whose `constant_value` is `q`;
- `set oid items` : a `Set` constant over member operands `items`. -/
inductive Operand where
  | string : Nat → String → Operand
  | number : Nat → Rat → Operand
  | set : Nat → List Operand → Operand

/-- `to_python(context)` of a constant operand: `Constant.to_python` returns
`constant_value`; `Set.to_python` evaluates every member (the Python result
is a set; it is modelled as the list of member values, compared with
set semantics by `pySetEq` wherever the source compares sets). -/
def Operand.toPython : Operand → Context → PyValue
  | Operand.string _ s, _ => PyValue.str s
  | Operand.number _ q, _ => PyValue.float q
  | Operand.set _ items, ctx => PyValue.list (items.attach.map (fun i => Operand.toPython i.1 ctx))
decreasing_by
  have := List.sizeOf_lt_of_mem i.2
  simp only [Operand.set.sizeOf_spec]
  omega

/-- Python set equality on (models of) value collections: mutual membership
under Python `==`. -/
def pySetEq (xs ys : List PyValue) : Bool :=
  xs.all (fun x => ys.any (pyValEq x)) && ys.all (fun y => xs.any (pyValEq y))

/-- `Number._to_number(value)`: `float(value)` with only `ValueError` caught
and re-raised as `InvalidOperationError`; a `TypeError` (e.g. from `None` or
a list) propagates unchanged. -/
def numberToNumber (v : PyValue) : Except PyErr Rat :=
  match pyFloatOf v with
  | Except.ok f => Except.ok f
  | Except.error PyErr.valueError => Except.error (PyErr.invalidOperation v)
  | Except.error e => Except.error e

/-- `equals(value, context)` of each constant kind:
- `String.equals` coerces `value` with `str` and compares text;
- `Number.equals` coerces with `_to_number` and compares floats;
- `Set.equals` iterates `value` into a set and compares it against
  `to_python(context)`. -/
def Operand.equals : Operand → PyValue → Context → Except PyErr Bool
  | Operand.string _ s, v, _ => Except.ok (pyStrOf v == s)
  | Operand.number _ q, v, _ =>
    match numberToNumber v with
    | Except.ok f => Except.ok (q == f)
    | Except.error e => Except.error e
  | Operand.set _ items, v, ctx =>
    match pyIter v with
    | Except.ok xs => Except.ok (pySetEq xs (items.map (fun i => Operand.toPython i ctx)))
    | Except.error e => Except.error e

/-- `Number.greater_than(value, context)`: `constant_value > _to_number(value)`. -/
def numberGreaterThan (q : Rat) (v : PyValue) (_ctx : Context) : Except PyErr Bool :=
  match numberToNumber v with
  | Except.ok f => Except.ok (decide (f < q))
  | Except.error e => Except.error e

/-- `Number.less_than(value, context)`: `constant_value < _to_number(value)`. -/
def numberLessThan (q : Rat) (v : PyValue) (_ctx : Context) : Except PyErr Bool :=
  match numberToNumber v with
  | Except.ok f => Except.ok (decide (q < f))
  | Except.error e => Except.error e

/-- `Set._to_int(value)`: `int(value)` must round-trip exactly
(`int(value) == float(value)`); any `ValueError`/`TypeError` from the
conversions, or a non-exact value, raises `InvalidOperationError`. -/
def setToInt (v : PyValue) : Except PyErr Int :=
  match pyIntOf v with
  | Except.error _ => Except.error (PyErr.invalidOperation v)
  | Except.ok n =>
    match pyFloatOf v with
    | Except.error _ => Except.error (PyErr.invalidOperation v)
    | Except.ok f =>
      if (n : Rat) = f then Except.ok n else Except.error (PyErr.invalidOperation v)

/-- `Set.less_than(value, context)`: `len(constant_value) < _to_int(value)`. -/
def setLessThan (items : List Operand) (v : PyValue) (_ctx : Context) : Except PyErr Bool :=
  match setToInt v with
  | Except.ok n => Except.ok (decide ((items.length : Int) < n))
  | Except.error e => Except.error e

/-- `Set.greater_than(value, context)`: `len(constant_value) > _to_int(value)`. -/
def setGreaterThan (items : List Operand) (v : PyValue) (_ctx : Context) : Except PyErr Bool :=
  match setToInt v with
  | Except.ok n => Except.ok (decide (n < (items.length : Int)))
  | Except.error e => Except.error e

/-- `Set.belongs_to(value, context)`: scan the members; a member whose
`equals` returns true decides the call; a member raising
`InvalidOperationError` is skipped (the `except` clause catches only that
class); any other exception propagates. -/
def setBelongsTo (items : List Operand) (v : PyValue) (ctx : Context) : Except PyErr Bool :=
  match items with
  | [] => Except.ok false
  | i :: rest =>
    match Operand.equals i v ctx with
    | Except.ok true => Except.ok true
    | Except.ok false => setBelongsTo rest v ctx
    | Except.error (PyErr.invalidOperation _) => setBelongsTo rest v ctx
    | Except.error e => Except.error e

/-- Body of the `for item in value` loop of `Set.is_subset`. -/
def setIsSubsetGo (items : List Operand) (xs : List PyValue) (ctx : Context) : Except PyErr Bool :=
  match xs with
  | [] => Except.ok true
  | x :: rest =>
    match setBelongsTo items x ctx with
    | Except.ok true => setIsSubsetGo items rest ctx
    | Except.ok false => Except.ok false
    | Except.error e => Except.error e

/-- `Set.is_subset(value, context)`: every element of `value` must pass
`belongs_to`. -/
def setIsSubset (items : List Operand) (v : PyValue) (ctx : Context) : Except PyErr Bool :=
  match pyIter v with
  | Except.ok xs => setIsSubsetGo items xs ctx
  | Except.error e => Except.error e

/-- `String.__init__`: the input is coerced with `str` and stored as
`constant_value`. -/
def stringConstructor (oid : Nat) (x : PyValue) : Operand :=
  Operand.string oid (pyStrOf x)

/-- The `constant_value` stored by a `String` constant (projection used to
state claims about construction). -/
def stringConstantValue : Operand → Option String
  | Operand.string _ s => some s
  | _ => Option.none

/-- Modelled from the spec: Python `==` on operands.  The operand base class
(`booleano.operations.operands.Operand`, repository code not under src/)
provides the inherited structural equality the spec describes: two operands
are equal iff they are of the same concrete kind and represent the same
`constant_value` (the structural test that lets two independently built
operand trees denote the same constant).  For `Set`, the member collections
must be equal as sets: mutual inclusion under the members' structural
equality. -/
def opEq : Operand → Operand → Bool
  | Operand.string _ s, Operand.string _ t => s == t
  | Operand.number _ q, Operand.number _ r => q == r
  | Operand.set _ xs, Operand.set _ ys =>
    xs.attach.all (fun x => ys.attach.any (fun y => opEq x.1 y.1)) &&
      ys.attach.all (fun y => xs.attach.any (fun x => opEq x.1 y.1))
  | _, _ => false
termination_by a b => sizeOf a + sizeOf b
decreasing_by
  · have h1 := List.sizeOf_lt_of_mem x.2
    have h2 := List.sizeOf_lt_of_mem y.2
    simp only [Operand.set.sizeOf_spec]
    omega
  · have h1 := List.sizeOf_lt_of_mem x.2
    have h2 := List.sizeOf_lt_of_mem y.2
    simp only [Operand.set.sizeOf_spec]
    omega

/-- Structural value of a constant: its concrete kind together with its
stored `constant_value` (`setK` stands for the set kind, whose value is not
needed for flat members). -/
inductive SKey where
  | strK : String → SKey
  | numK : Rat → SKey
  | setK : SKey
deriving DecidableEq

/-- The structural value of an operand.  For flat operands, `opEq` is exactly
equality of structural values (see `opEq_flat_eq_structKey`). -/
def structKey : Operand → SKey
  | Operand.string _ s => SKey.strK s
  | Operand.number _ q => SKey.numK q
  | Operand.set _ _ => SKey.setK

/-- Is the operand a flat constant (a `String` or a `Number`)? -/
def isFlat : Operand → Bool
  | Operand.set _ _ => false
  | _ => true

/-- The matching loop of `Set.check_equivalence`: for each element of the
other set, delete the first not-yet-consumed element of this set that is
`==` to it (the inherited structural equality, see `opEq`). -/
def consumeMatches (selfItems nodeItems : List Operand) : List Operand :=
  nodeItems.foldl (fun acc e => acc.eraseP (fun u => opEq u e)) selfItems

/-- `Set.check_equivalence(node)`: after the base-class node-type check
(`Operand.check_equivalence`, a same-kind assertion whose file is not under
src/ and which is modelled from the spec), assert equal cardinality, consume
matches, and assert that no element of this set was left unmatched. -/
def checkEquivalenceSet : Operand → Operand → Except PyErr Unit
  | Operand.set _ selfItems, Operand.set _ nodeItems =>
    if selfItems.length = nodeItems.length then
      if (consumeMatches selfItems nodeItems).length = 0 then Except.ok ()
      else Except.error (PyErr.assertionError "No match for the following elements")
    else Except.error (PyErr.assertionError "Sets do not have the same cardinality")
  | _, _ => Except.error (PyErr.assertionError "Nodes are not equivalent")

/-- A `Variable` as consumed by the arithmetic evaluator: `to_python` reads
the context fresh on every call, so it is exactly a function of the context. -/
def Varb : Type := Context → PyValue

/-- The external `Namespace.get_object(name, scopes)` registry
(out of scope for the core; consumed as an interface). -/
def NSpace : Type := String → List String → Varb

mutual

/-- The nested token structure handed to `ArithmeticVariable` by the external
tokenizer (pyparsing `ParseResults`): a token is a string or a nested group. -/
inductive PTok where
  | tok : String → PTok
  | group : PTokList → PTok

/-- A sequence of parsed tokens. -/
inductive PTokList where
  | nil : PTokList
  | cons : PTok → PTokList → PTokList

end

mutual

/-- `ArithmeticVariable.flatten` on a single token. -/
def flattenTok : PTok → List String
  | PTok.tok s => [s]
  | PTok.group g => flattenList g

/-- `ArithmeticVariable.flatten`: depth-first, order-preserving flattening of
the nested token structure. -/
def flattenList : PTokList → List String
  | PTokList.nil => []
  | PTokList.cons t rest => flattenTok t ++ flattenList rest

end

/-- A token is a variable reference iff `re.findall("[a-zA-Z" + sep + "]+",
token)` is nonempty, i.e. iff it contains a letter or the namespace
separator. -/
def isVariableToken (sep : Char) (s : String) : Bool :=
  s.data.any (fun c => c.isAlpha || c == sep)

/-- Python `str.split(sep)` on character lists (`sep` a single character). -/
def splitOnSep (sep : Char) : List Char → List (List Char)
  | [] => [[]]
  | c :: rest =>
    match splitOnSep sep rest with
    | [] => if c = sep then [[], []] else [[c]]
    | g :: gs => if c = sep then [] :: g :: gs else (c :: g) :: gs

/-- Last group of a split (Python `var[-1]`); total since a split is never
empty. -/
def lastGroup : List (List Char) → List Char
  | [] => []
  | [g] => g
  | _ :: g :: gs => lastGroup (g :: gs)

/-- `var[-1]` of `token.split(sep)` — the bare variable name. -/
def tokenVariableName (sep : Char) (s : String) : String :=
  String.mk (lastGroup (splitOnSep sep s.data))

/-- `var[0:-1]` of `token.split(sep)` — the scope path. -/
def tokenVariableScopes (sep : Char) (s : String) : List String :=
  ((splitOnSep sep s.data).dropLast).map (fun cs => String.mk cs)

mutual

/-- `ArithmeticVariable.__get_variable_names` on one token: a variable token
contributes the mapping from its full original text to the Variable resolved
via `Namespace.get_object(name, scopes)`; any other plain token contributes
nothing; a group recurses. -/
def varNamesTok (sep : Char) (ns : NSpace) : PTok → List (String × Varb)
  | PTok.tok s =>
    if isVariableToken sep s then
      [(s, ns (tokenVariableName sep s) (tokenVariableScopes sep s))]
    else []
  | PTok.group g => varNamesList sep ns g

/-- `__get_variable_names` over a token sequence (flattened left to right). -/
def varNamesList (sep : Char) (ns : NSpace) : PTokList → List (String × Varb)
  | PTokList.nil => []
  | PTokList.cons t rest => varNamesTok sep ns t ++ varNamesList sep ns rest

end

/-- Merge of the per-token mappings into one dictionary
(`ArithmeticVariable.__define_variables`): duplicate keys collapse to one
entry.  A given key text always resolves to the same Variable (the lookup is
a function of the token text alone), so keeping the first binding equals the
source's insertion-ordered dict with last-write-wins values.  `fuel` only
bounds the recursion; `dedupKeys` supplies enough. -/
def dedupKeysF : Nat → List (String × Varb) → List (String × Varb)
  | _, [] => []
  | 0, l => l
  | fuel + 1, (k, v) :: rest =>
    (k, v) :: dedupKeysF fuel (rest.filter (fun p => !(p.1 == k)))

/-- Duplicate-key collapse of the identifier-to-Variable mapping. -/
def dedupKeys (l : List (String × Varb)) : List (String × Varb) :=
  dedupKeysF l.length l

/-- `ArithmeticVariable.replace(num, context, namespace)`: for each mapping
entry, skip it when `namespace` is set and the key has no separator,
otherwise textually replace every occurrence of the key by
`str(variable.to_python(context))`. -/
def avReplace (sep : Char) (vars : List (String × Varb)) (num : List Char)
    (ctx : Context) (nsOnly : Bool) : List Char :=
  vars.foldl
    (fun acc kv =>
      if nsOnly && !(kv.1.data.contains sep) then acc
      else replaceChars kv.1.data (pyStrOf (kv.2 ctx)).data acc)
    num

/-- Python `"".join` over the flattened token strings. -/
def joinChars : List String → List Char
  | [] => []
  | s :: rest => s.data ++ joinChars rest

/-- The state built by `ArithmeticVariable.__init__`: the parsed token
structure, the identifier-to-Variable mapping fixed at construction, and the
joined full expression text. -/
structure ArithmeticVariable where
  sep : Char
  parsedResults : PTokList
  requiredVariables : List (String × Varb)
  fullExpression : List Char

/-- `ArithmeticVariable.__init__(number, namespace, namespace_separator)`. -/
def ArithmeticVariable.make (number : PTokList) (ns : NSpace) (sep : Char) :
    ArithmeticVariable where
  sep := sep
  parsedResults := number
  requiredVariables := dedupKeys (varNamesList sep ns number)
  fullExpression := joinChars (flattenList number)

/-- The string handed to the safe evaluator by
`ArithmeticVariable.evaluate(context)`: qualified-key substitution pass, then
the all-keys pass, then `^` → `**` translation. -/
def ArithmeticVariable.postSubstitution (av : ArithmeticVariable) (ctx : Context) : List Char :=
  let n1 := avReplace av.sep av.requiredVariables av.fullExpression ctx true
  let n2 := avReplace av.sep av.requiredVariables n1 ctx false
  replaceChars ['^'] ['*', '*'] n2

/-- `ArithmeticVariable.evaluate(context)`: substitute, translate the power
operator, then evaluate with `SafeEval.eval_expr`. -/
def ArithmeticVariable.evaluate (av : ArithmeticVariable) (ctx : Context) : Option Rat :=
  safeEval (av.postSubstitution ctx)

/-- `Arithmetic.to_python(context)`: exactly `constant_value.evaluate(context)`,
where `constant_value` is the wrapped `ArithmeticVariable`. -/
def arithmeticToPython (av : ArithmeticVariable) (ctx : Context) : Option Rat :=
  av.evaluate ctx

/-- `Arithmetic._to_number(value)`: same body as `Number._to_number`. -/
def arithmeticToNumber (v : PyValue) : Except PyErr Rat :=
  match pyFloatOf v with
  | Except.ok f => Except.ok f
  | Except.error PyErr.valueError => Except.error (PyErr.invalidOperation v)
  | Except.error e => Except.error e

/-- `Arithmetic.equals(value, context)` as written in the source: it calls
`Constant.equals(self._to_number(value), context)`, which compares
`self.constant_value == float(value)`.  `constant_value` is the
`ArithmeticVariable` object itself — not the evaluated number — and neither
`ArithmeticVariable` nor `float` considers the other equal, so the Python
comparison is identity-based and always `False`. -/
def arithmeticEquals (_av : ArithmeticVariable) (v : PyValue) (_ctx : Context) :
    Except PyErr Bool :=
  match arithmeticToNumber v with
  | Except.ok _ => Except.ok false
  | Except.error e => Except.error e

/-- `Arithmetic.greater_than(value, context)` as written in the source:
`self.constant_value > self._to_number(value)` orders the
`ArithmeticVariable` object against a float, which is an unsupported
comparison in Python 3 — a `TypeError` — whenever the coercion itself
succeeds. -/
def arithmeticGreaterThan (_av : ArithmeticVariable) (v : PyValue) (_ctx : Context) :
    Except PyErr Bool :=
  match arithmeticToNumber v with
  | Except.ok _ => Except.error PyErr.typeError
  | Except.error e => Except.error e

/-- `Arithmetic.less_than(value, context)` as written in the source: same
object-versus-float ordering as `greater_than`, hence the same `TypeError`. -/
def arithmeticLessThan (_av : ArithmeticVariable) (v : PyValue) (_ctx : Context) :
    Except PyErr Bool :=
  match arithmeticToNumber v with
  | Except.ok _ => Except.error PyErr.typeError
  | Except.error e => Except.error e

/-- A context with no bindings (concrete instances below never read it). -/
def ctx0 : Context := fun _ => PyValue.none

/-- A Namespace with no resolvable names. -/
def ns0 : NSpace := fun _ _ => fun _ => PyValue.none

/-- Did a comparison call return `True`?  (Bool-valued view of a method
result, used to state the membership claims.) -/
def isOkTrue : Except PyErr Bool → Bool
  | Except.ok true => true
  | _ => false

/-- Did a comparison call either return, or raise the typed
`InvalidOperationError` (the only exception `Set.belongs_to` recovers
from)? -/
def isRecoverable : Except PyErr Bool → Bool
  | Except.ok _ => true
  | Except.error (PyErr.invalidOperation _) => true
  | Except.error _ => false

/-- Namespace of the substitution-ordering example: `ns:x` resolves to 5 and
bare `x` to 2. -/
def nsOrder : NSpace := fun name scopes =>
  if name = "x" ∧ scopes = ["ns"] then fun _ => PyValue.int 5
  else if name = "x" ∧ scopes = [] then fun _ => PyValue.int 2
  else fun _ => PyValue.none

/-- Tokens of the expression `ns:x + x` as the external tokenizer yields
them. -/
def toksOrder : PTokList :=
  PTokList.cons (PTok.tok "ns:x") (PTokList.cons (PTok.tok "+")
    (PTokList.cons (PTok.tok "x") PTokList.nil))

/-- The `ArithmeticVariable` built over `ns:x + x`. -/
def avOrder : ArithmeticVariable := ArithmeticVariable.make toksOrder nsOrder ':'

/-- Family of namespaces for the substitution-ordering claim: `ns:x` resolves
to the digit `a` and bare `x` to the digit `b`. -/
def nsOrderAB (a b : Fin 10) : NSpace := fun name scopes =>
  if name = "x" ∧ scopes = ["ns"] then fun _ => PyValue.int a.1
  else if name = "x" ∧ scopes = [] then fun _ => PyValue.int b.1
  else fun _ => PyValue.none

/-- Tokens `2 ^ 3`: no token contains a letter or the separator, so none is
an identifier. -/
def toksCaret : PTokList :=
  PTokList.cons (PTok.tok "2") (PTokList.cons (PTok.tok "^")
    (PTokList.cons (PTok.tok "3") PTokList.nil))

/-- The `ArithmeticVariable` built over `2 ^ 3`. -/
def avCaret : ArithmeticVariable := ArithmeticVariable.make toksCaret ns0 ':'

/-- Identifier-free tokens `2 + 3` (round-trip witness input). -/
def toksPlain : PTokList :=
  PTokList.cons (PTok.tok "2") (PTokList.cons (PTok.tok "+")
    (PTokList.cons (PTok.tok "3") PTokList.nil))

/-- Namespace resolving the bare `x` to a Variable whose context value is the
string `"1; import os"`, so that the post-substitution expression carries a
foreign token. -/
def nsInj : NSpace := fun name scopes =>
  if name = "x" ∧ scopes = [] then fun _ => PyValue.str "1; import os"
  else fun _ => PyValue.none

/-- The `ArithmeticVariable` over the single token `x` under `nsInj`. -/
def avInj : ArithmeticVariable :=
  ArithmeticVariable.make (PTokList.cons (PTok.tok "x") PTokList.nil) nsInj ':'

/-- An `Arithmetic` constant wrapping the literal expression `2`. -/
def avTwo : ArithmeticVariable :=
  ArithmeticVariable.make (PTokList.cons (PTok.tok "2") PTokList.nil) ns0 ':'

/-- Members of the membership-claim witness set: the string constant `"a"`
and the number constant `5.0`. -/
def itemsAB : List Operand := [Operand.string 1 "a", Operand.number 2 5]

/-- Digits are allowed characters of the restricted grammar. -/
theorem allowedChar_of_isDigit {a : Char} (h : a.isDigit = true) : allowedChar a = true := by
  simp [allowedChar, h]

/-- The consumed part of a successful `lexNumber` read is made of digits and
dots only, all of them allowed characters. -/
theorem lexNumber_split (cs : List Char) (q : Rat) (rest : List Char)
    (h : lexNumber cs = some (q, rest)) :
    ∃ pre, cs = pre ++ rest ∧ ∀ a ∈ pre, allowedChar a = true := by
  unfold lexNumber at h
  split at h
  · next r2 heq =>
    split at h
    · exact absurd h (by simp)
    · have hrest : rest = r2.dropWhile Char.isDigit := (Prod.mk.injEq .. ▸ Option.some.injEq _ _ ▸ h).2.symm
      refine ⟨cs.takeWhile Char.isDigit ++ '.' :: r2.takeWhile Char.isDigit, ?_, ?_⟩
      · rw [hrest, List.append_assoc, List.cons_append,
          List.takeWhile_append_dropWhile, ← heq, List.takeWhile_append_dropWhile]
      · intro a ha
        rcases List.mem_append.mp ha with hq | hq
        · exact allowedChar_of_isDigit (List.mem_takeWhile_imp hq)
        · rcases List.mem_cons.mp hq with hq | hq
          · subst hq; rfl
          · exact allowedChar_of_isDigit (List.mem_takeWhile_imp hq)
  · split at h
    · exact absurd h (by simp)
    · have hrest : rest = cs.dropWhile Char.isDigit := (Prod.mk.injEq .. ▸ Option.some.injEq _ _ ▸ h).2.symm
      refine ⟨cs.takeWhile Char.isDigit, ?_, ?_⟩
      · rw [hrest, List.takeWhile_append_dropWhile]
      · intro a ha
        exact allowedChar_of_isDigit (List.mem_takeWhile_imp ha)

/-- The tokenizer rejects any input containing a character outside the
restricted grammar, whatever the fuel. -/
theorem tokenizeF_none_of_foreign (fuel : Nat) :
    ∀ cs : List Char, (∃ c ∈ cs, allowedChar c = false) → tokenizeF fuel cs = Option.none := by
  induction fuel with
  | zero =>
    intro cs h
    rcases cs with _ | ⟨c, cs⟩
    · rcases h with ⟨b, hb, _⟩; cases hb
    · rfl
  | succ fuel ih =>
    intro cs h
    rcases cs with _ | ⟨c, cs⟩
    · rcases h with ⟨b, hb, _⟩; cases hb
    by_cases hc : allowedChar c = false
    · have hx : ¬(c = ' ') ∧ ¬(c = '+') ∧ ¬(c = '-') ∧ ¬(c = '/') ∧ ¬(c = '(') ∧
          ¬(c = ')') ∧ ¬(c = '*') ∧ c.isDigit = false ∧ ¬(c = '.') := by
        simpa [allowedChar, and_assoc] using hc
      obtain ⟨h1, h2, h3, h4, h5, h6, h7, h8, h9⟩ := hx
      simp only [tokenizeF]
      rw [if_neg h1, if_neg h2, if_neg h3, if_neg h4, if_neg h5, if_neg h6, if_neg h7,
        if_neg (by simp [h8, h9])]
    · have hct : allowedChar c = true := by revert hc; cases allowedChar c <;> simp
      obtain ⟨b, hb, hbad⟩ := h
      have hbtail : b ∈ cs := by
        rcases List.mem_cons.mp hb with he | he
        · rw [he, hct] at hbad; cases hbad
        · exact he
      have htail : ∃ x ∈ cs, allowedChar x = false := ⟨b, hbtail, hbad⟩
      simp only [tokenizeF]
      split_ifs with g1 g2 g3 g4 g5 g6 g7 g8
      · exact ih cs htail
      · simp [ih cs htail]
      · simp [ih cs htail]
      · simp [ih cs htail]
      · simp [ih cs htail]
      · simp [ih cs htail]
      · rcases cs with _ | ⟨c2, cs2⟩
        · cases hbtail
        by_cases hc2 : c2 = '*'
        · subst hc2
          have hb2 : b ∈ cs2 := by
            rcases List.mem_cons.mp hbtail with he | he
            · rw [he] at hbad; cases hbad
            · exact he
          simp [ih cs2 ⟨b, hb2, hbad⟩]
        · have : (match ('*' : Char), (c2 :: cs2 : List Char) with
              | '*', '*' :: cs2 => (tokenizeF fuel cs2).map (fun ts => ATok.dstar :: ts)
              | _, _ => (tokenizeF fuel (c2 :: cs2)).map (fun ts => ATok.star :: ts)) =
              (tokenizeF fuel (c2 :: cs2)).map (fun ts => ATok.star :: ts) := by
            simp [hc2]
          simp [hc2, ih (c2 :: cs2) htail]
      · rcases hlex : lexNumber (c :: cs) with _ | ⟨q, rest⟩
        · rfl
        · obtain ⟨pre, hsplit, hpre⟩ := lexNumber_split (c :: cs) q rest hlex
          have hbrest : b ∈ rest := by
            have : b ∈ pre ++ rest := hsplit ▸ hb
            rcases List.mem_append.mp this with hp | hp
            · rw [hpre b hp] at hbad; cases hbad
            · exact hp
          simp [hlex, ih rest ⟨b, hbrest, hbad⟩]
      · rfl

/-- The restricted evaluator rejects any input containing a character outside
the restricted grammar. -/
theorem safeEval_none_of_foreign (cs : List Char)
    (h : ∃ c ∈ cs, allowedChar c = false) : safeEval cs = Option.none := by
  unfold safeEval tokenize
  rw [tokenizeF_none_of_foreign cs.length cs h]

mutual

/-- A token none of whose flattened leaves is a variable token contributes no
mapping entry. -/
theorem varNamesTok_eq_nil (sep : Char) (ns : NSpace) :
    (t : PTok) → (∀ s ∈ flattenTok t, isVariableToken sep s = false) →
      varNamesTok sep ns t = []
  | PTok.tok s, h => by
    have hs : isVariableToken sep s = false := h s (by simp [flattenTok])
    simp [varNamesTok, hs]
  | PTok.group g, h =>
    varNamesList_eq_nil sep ns g (by simpa [flattenTok] using h)

/-- A token sequence none of whose flattened leaves is a variable token
yields an empty identifier-to-Variable mapping. -/
theorem varNamesList_eq_nil (sep : Char) (ns : NSpace) :
    (l : PTokList) → (∀ s ∈ flattenList l, isVariableToken sep s = false) →
      varNamesList sep ns l = []
  | PTokList.nil, _ => rfl
  | PTokList.cons t rest, h => by
    have h1 := varNamesTok_eq_nil sep ns t
      (fun s hs => h s (by simp [flattenList, List.mem_append]; exact Or.inl hs))
    have h2 := varNamesList_eq_nil sep ns rest
      (fun s hs => h s (by simp [flattenList, List.mem_append]; exact Or.inr hs))
    simp [varNamesList, h1, h2]

end

/-- When no flattened token is a variable token, construction records an
empty `required_variables` mapping. -/
theorem make_requiredVariables_eq_nil (toks : PTokList) (ns : NSpace) (sep : Char)
    (h : ∀ s ∈ flattenList toks, isVariableToken sep s = false) :
    (ArithmeticVariable.make toks ns sep).requiredVariables = [] := by
  simp [ArithmeticVariable.make, varNamesList_eq_nil sep ns toks h, dedupKeys, dedupKeysF]

/-- Replacing a single character that does not occur in a string leaves the
string unchanged, whatever the fuel. -/
theorem replaceCharsF_single_of_not_mem (c0 : Char) (rep : List Char) (fuel : Nat) :
    ∀ s : List Char, c0 ∉ s → replaceCharsF [c0] rep fuel s = s := by
  induction fuel with
  | zero => intro s _; cases s <;> rfl
  | succ fuel ih =>
    intro s h
    rcases s with _ | ⟨c, cs⟩
    · rfl
    · have hc : ¬(c0 == c) := by
        intro hbe
        exact h (by rw [List.mem_cons]; exact Or.inl (beq_iff_eq.mp hbe))
      have hpre : ([c0].isPrefixOf (c :: cs)) = false := by
        simp [List.isPrefixOf]
        intro hq
        exact absurd (by exact beq_iff_eq.mpr hq) hc
      simp only [replaceCharsF, List.isEmpty_cons, Bool.not_false, Bool.true_and, hpre,
        Bool.false_eq_true, if_false]
      rw [ih cs (fun hm => h (List.mem_cons_of_mem c hm))]

/-- A character occurs in the joined token text iff it occurs in some
token. -/
theorem mem_joinChars (c : Char) : (ss : List String) →
    (c ∈ joinChars ss ↔ ∃ s ∈ ss, c ∈ s.data)
  | [] => by simp [joinChars]
  | s :: rest => by
    simp [joinChars, List.mem_append, mem_joinChars c rest]

/-- When no member raises an unrecoverable exception, `belongs_to` returns
exactly "some member's `equals` returned true". -/
theorem setBelongsTo_eq_any (v : PyValue) (ctx : Context) :
    (items : List Operand) →
    (∀ i ∈ items, isRecoverable (Operand.equals i v ctx) = true) →
    setBelongsTo items v ctx =
      Except.ok (items.any (fun i => isOkTrue (Operand.equals i v ctx)))
  | [], _ => rfl
  | i :: rest, h => by
    have hi := h i (List.mem_cons_self i rest)
    have hrest := setBelongsTo_eq_any v ctx rest
      (fun j hj => h j (List.mem_cons_of_mem i hj))
    rcases he : Operand.equals i v ctx with e | b
    · rcases e with _ | _ | w | m
      · simp [he, isRecoverable] at hi
      · simp [he, isRecoverable] at hi
      · have hstep : setBelongsTo (i :: rest) v ctx = setBelongsTo rest v ctx := by
          conv_lhs => unfold setBelongsTo
          rw [he]
        rw [hstep, hrest]
        simp [List.any_cons, he, isOkTrue]
      · simp [he, isRecoverable] at hi
    · rcases b with _ | _
      · have hstep : setBelongsTo (i :: rest) v ctx = setBelongsTo rest v ctx := by
          conv_lhs => unfold setBelongsTo
          rw [he]
        rw [hstep, hrest]
        simp [List.any_cons, he, isOkTrue]
      · have hstep : setBelongsTo (i :: rest) v ctx = Except.ok true := by
          conv_lhs => unfold setBelongsTo
          rw [he]
        rw [hstep]
        simp [List.any_cons, he, isOkTrue]

/-- When no member raises an unrecoverable exception against any element,
the `is_subset` loop returns exactly "every element passed `belongs_to`". -/
theorem setIsSubsetGo_eq_all (items : List Operand) (ctx : Context) :
    (xs : List PyValue) →
    (∀ x ∈ xs, ∀ i ∈ items, isRecoverable (Operand.equals i x ctx) = true) →
    setIsSubsetGo items xs ctx =
      Except.ok (xs.all (fun x => isOkTrue (setBelongsTo items x ctx)))
  | [], _ => rfl
  | x :: rest, h => by
    have hx := setBelongsTo_eq_any x ctx items (h x (List.mem_cons_self x rest))
    have hrest := setIsSubsetGo_eq_all items ctx rest
      (fun y hy => h y (List.mem_cons_of_mem x hy))
    rcases hany : items.any (fun i => isOkTrue (Operand.equals i x ctx)) with _ | _
    · rw [hany] at hx
      have hstep : setIsSubsetGo items (x :: rest) ctx = Except.ok false := by
        conv_lhs => unfold setIsSubsetGo
        rw [hx]
      rw [hstep]
      simp [List.all_cons, hx, isOkTrue]
    · rw [hany] at hx
      have hstep : setIsSubsetGo items (x :: rest) ctx = setIsSubsetGo items rest ctx := by
        conv_lhs => unfold setIsSubsetGo
        rw [hx]
      rw [hstep, hrest]
      simp [List.all_cons, hx, isOkTrue]

/-- On flat constants, the structural equality is exactly equality of
structural values. -/
theorem opEq_flat_eq_structKey (a b : Operand) (ha : isFlat a = true)
    (hb : isFlat b = true) :
    opEq a b = decide (structKey a = structKey b) := by
  cases a with
  | string i s =>
    cases b with
    | string j t => by_cases h : s = t <;> simp [opEq, structKey, h]
    | number j r => simp [opEq, structKey]
    | set j ys => simp [isFlat] at hb
  | number i q =>
    cases b with
    | string j t => simp [opEq, structKey]
    | number j r => by_cases h : q = r <;> simp [opEq, structKey, h]
    | set j ys => simp [isFlat] at hb
  | set i xs => simp [isFlat] at ha

/-- Erasing the first structural match commutes with projecting structural
values, on flat constants. -/
theorem eraseP_map_structKey (e : Operand) (he : isFlat e = true) :
    (l : List Operand) → (∀ u ∈ l, isFlat u = true) →
    (l.eraseP (fun u => opEq u e)).map structKey =
      (l.map structKey).erase (structKey e)
  | [], _ => rfl
  | u :: rest, h => by
    have hu := h u (List.mem_cons_self u rest)
    have hr := fun j hj => h j (List.mem_cons_of_mem u hj)
    by_cases heq : structKey u = structKey e
    · simp [List.eraseP_cons, List.erase_cons, opEq_flat_eq_structKey u e hu he, heq]
    · simp [List.eraseP_cons, List.erase_cons, opEq_flat_eq_structKey u e hu he, heq,
        eraseP_map_structKey e he rest hr]

/-- The matching loop computes, at the level of structural values, the list
difference of this set's members by the other set's members. -/
theorem consumeMatches_map_structKey :
    (nodeItems : List Operand) → (selfItems : List Operand) →
    (∀ u ∈ nodeItems, isFlat u = true) → (∀ u ∈ selfItems, isFlat u = true) →
    (consumeMatches selfItems nodeItems).map structKey =
      (selfItems.map structKey).diff (nodeItems.map structKey)
  | [], selfItems, _, _ => by simp [consumeMatches]
  | e :: node, selfItems, hn, hs => by
    have step : consumeMatches selfItems (e :: node) =
        consumeMatches (selfItems.eraseP (fun u => opEq u e)) node := rfl
    have he := hn e (List.mem_cons_self e node)
    have hn2 := fun j hj => hn j (List.mem_cons_of_mem e hj)
    have hs2 : ∀ u ∈ selfItems.eraseP (fun u => opEq u e), isFlat u = true :=
      fun u hu => hs u ((List.eraseP_sublist selfItems).mem hu)
    rw [step, consumeMatches_map_structKey node _ hn2 hs2,
      eraseP_map_structKey e he selfItems hs, List.map_cons, List.diff_cons]

/-- Under equal cardinality, the matching loop consumes everything iff the
two flat member lists carry the same multiset of structural values. -/
theorem consumeMatches_empty_iff (selfItems nodeItems : List Operand)
    (h : selfItems.length = nodeItems.length)
    (hself : ∀ u ∈ selfItems, isFlat u = true)
    (hnode : ∀ u ∈ nodeItems, isFlat u = true) :
    (consumeMatches selfItems nodeItems).length = 0 ↔
      ((nodeItems.map structKey : Multiset SKey) =
        (selfItems.map structKey)) := by
  rw [List.length_eq_zero]
  constructor
  · intro h0
    have hm : (selfItems.map structKey).diff (nodeItems.map structKey) = [] := by
      rw [← consumeMatches_map_structKey nodeItems selfItems hnode hself, h0]; rfl
    have hle : ((selfItems.map structKey : List SKey) :
          Multiset SKey) ≤
        ((nodeItems.map structKey : List SKey) :
          Multiset SKey) := by
      rw [← tsub_eq_zero_iff_le, Multiset.coe_sub, hm]; rfl
    have hcard : Multiset.card ((nodeItems.map structKey :
          List SKey) : Multiset SKey) ≤
        Multiset.card ((selfItems.map structKey :
          List SKey) : Multiset SKey) := by
      simp [Multiset.coe_card, h]
    exact (Multiset.eq_of_le_of_card_le hle hcard).symm
  · intro he
    have hle : ((selfItems.map structKey : List SKey) :
          Multiset SKey) ≤
        ((nodeItems.map structKey : List SKey) :
          Multiset SKey) := le_of_eq he.symm
    have hz : ((selfItems.map structKey : List SKey) :
          Multiset SKey) -
        ((nodeItems.map structKey : List SKey) :
          Multiset SKey) = 0 :=
      tsub_eq_zero_iff_le.mpr hle
    rw [Multiset.coe_sub] at hz
    have hdiff : (selfItems.map structKey).diff (nodeItems.map structKey) = [] :=
      (Multiset.coe_eq_zero _).mp hz
    have : (consumeMatches selfItems nodeItems).map structKey = [] := by
      rw [consumeMatches_map_structKey nodeItems selfItems hnode hself, hdiff]
    exact List.map_eq_nil_iff.mp this

/-- C1.  The claim states that `Arithmetic.equals`, `greater_than` and
`less_than` compare the coerced float against the evaluated numeric result
`a.to_python(ctx)`.  The code does not: `constant_value` is the
`ArithmeticVariable` object, so on the wrapped expression `2` — whose
`to_python` evaluates to `2` — `equals("2")` returns `False` instead of
`True`, and `greater_than("1")`/`less_than("9")` raise `TypeError` instead of
comparing `2.0` with the coerced float. -/
theorem c1_arithmetic_comparisons_ignore_evaluation :
    arithmeticToPython avTwo ctx0 = some 2 ∧
    arithmeticEquals avTwo (PyValue.str "2") ctx0 = Except.ok false ∧
    arithmeticGreaterThan avTwo (PyValue.str "1") ctx0 = Except.error PyErr.typeError ∧
    arithmeticLessThan avTwo (PyValue.str "9") ctx0 = Except.error PyErr.typeError := by
  refine ⟨?_, ?_, ?_, ?_⟩ <;> with_unfolding_all rfl

/-- C2.  Qualified identifiers are substituted before bare ones: for every
pair of digit values, `ns:x + x` with `ns:x ↦ a` and `x ↦ b` evaluates to
`a + b` (bare-first substitution would corrupt the qualified occurrence into
the unparsable `ns:` and fail); in particular, with `ns:x ↦ 5` and `x ↦ 2`
the result is 7 and never the 4 that bare-first substitution would yield. -/
theorem c2_qualified_substitution_first :
    (∀ a b : Fin 10,
      (ArithmeticVariable.make toksOrder (nsOrderAB a b) ':').evaluate ctx0 =
        some ((a.1 : Rat) + (b.1 : Rat))) ∧
    avOrder.evaluate ctx0 = some 7 ∧ avOrder.evaluate ctx0 ≠ some 4 := by
  refine ⟨?_, ?_, ?_⟩
  · with_unfolding_all decide
  · with_unfolding_all rfl
  · with_unfolding_all decide

/-- C3.  If the post-substitution expression string contains any character
outside the restricted numeric grammar, `evaluate(context)` fails with an
error — the string is never executed as code. -/
theorem c3_unsafe_expression_fails (av : ArithmeticVariable) (ctx : Context)
    (h : ∃ c ∈ av.postSubstitution ctx, allowedChar c = false) :
    av.evaluate ctx = Option.none :=
  safeEval_none_of_foreign _ h

/-- Witness for C3: a variable whose context value is the string
`1; import os` makes the post-substitution expression carry foreign tokens,
and evaluation fails. -/
theorem c3_unsafe_expression_fails_witness :
    (∃ c ∈ avInj.postSubstitution ctx0, allowedChar c = false) ∧
    avInj.evaluate ctx0 = Option.none := by
  have hex : ∃ c ∈ avInj.postSubstitution ctx0, allowedChar c = false := by
    with_unfolding_all decide
  exact ⟨hex, c3_unsafe_expression_fails avInj ctx0 hex⟩

/-- C4.  The claim states every non-float-coercible right-hand value raises
`InvalidOperationError`.  The code catches only `ValueError`: a non-numeric
string does raise the typed error, but `None` or a list raises an uncaught
`TypeError` from `float(value)` — contradicting the method docstrings. -/
theorem c4_number_coercion_error_kinds :
    Operand.equals (Operand.number 0 5) (PyValue.str "abc") ctx0 =
      Except.error (PyErr.invalidOperation (PyValue.str "abc")) ∧
    Operand.equals (Operand.number 0 5) PyValue.none ctx0 =
      Except.error PyErr.typeError ∧
    Operand.equals (Operand.number 0 5) (PyValue.list [PyValue.int 1]) ctx0 =
      Except.error PyErr.typeError ∧
    numberGreaterThan 5 PyValue.none ctx0 = Except.error PyErr.typeError ∧
    numberLessThan 5 PyValue.none ctx0 = Except.error PyErr.typeError := by
  refine ⟨?_, ?_, ?_, ?_, ?_⟩ <;> rfl

/-- C5.  For an integer right-hand operand `k`, `Set.less_than` returns
`len(constant_value) < k` and `Set.greater_than` returns
`len(constant_value) > k`; a numeric value with `int(v) != float(v)` (such
as 2.5) raises `InvalidOperationError` instead of being truncated. -/
theorem c5_set_cardinality_comparisons (items : List Operand) (ctx : Context) :
    (∀ k : Int,
      setLessThan items (PyValue.int k) ctx =
        Except.ok (decide ((items.length : Int) < k)) ∧
      setGreaterThan items (PyValue.int k) ctx =
        Except.ok (decide (k < (items.length : Int)))) ∧
    (∀ q : Rat, ((ratTrunc q : Rat) ≠ q) →
      setLessThan items (PyValue.float q) ctx =
        Except.error (PyErr.invalidOperation (PyValue.float q)) ∧
      setGreaterThan items (PyValue.float q) ctx =
        Except.error (PyErr.invalidOperation (PyValue.float q))) := by
  constructor
  · intro k
    constructor <;> simp [setLessThan, setGreaterThan, setToInt, pyIntOf, pyFloatOf]
  · intro q hq
    constructor <;> simp [setLessThan, setGreaterThan, setToInt, pyIntOf, pyFloatOf, hq]

/-- Witness for C5: a two-element set is less than 3, and comparing against
the non-integral 2.5 raises the typed error. -/
theorem c5_set_cardinality_comparisons_witness :
    setLessThan itemsAB (PyValue.int 3) ctx0 = Except.ok true ∧
    ((ratTrunc (5 / 2 : Rat) : Rat) ≠ (5 / 2 : Rat)) ∧
    setLessThan itemsAB (PyValue.float (5 / 2)) ctx0 =
      Except.error (PyErr.invalidOperation (PyValue.float (5 / 2))) := by
  have hq : ((ratTrunc (5 / 2 : Rat) : Rat) ≠ (5 / 2 : Rat)) := by
    with_unfolding_all decide
  have h1 := (c5_set_cardinality_comparisons itemsAB ctx0).1 3
  have h2 := (c5_set_cardinality_comparisons itemsAB ctx0).2 (5 / 2) hq
  exact ⟨h1.1.trans (by with_unfolding_all rfl), hq, h2.1⟩

/-- C6.  `belongs_to(v, ctx)` returns true iff some member operand's
`equals(v, ctx)` returns true, a member raising the typed
`InvalidOperationError` being skipped; `is_subset(vs, ctx)` returns true iff
every element of `vs` passes `belongs_to` — provided no member raises an
unrecoverable (untyped) exception. -/
theorem c6_membership_scan (items : List Operand) (v : PyValue) (xs : List PyValue)
    (ctx : Context)
    (h1 : ∀ i ∈ items, isRecoverable (Operand.equals i v ctx) = true)
    (h2 : ∀ x ∈ xs, ∀ i ∈ items, isRecoverable (Operand.equals i x ctx) = true) :
    setBelongsTo items v ctx =
      Except.ok (items.any (fun i => isOkTrue (Operand.equals i v ctx))) ∧
    setIsSubset items (PyValue.list xs) ctx =
      Except.ok (xs.all (fun x => isOkTrue (setBelongsTo items x ctx))) := by
  refine ⟨setBelongsTo_eq_any v ctx items h1, ?_⟩
  exact setIsSubsetGo_eq_all items ctx xs h2

/-- Witness for C6: against the set `{String "a", Number 5.0}`, the value
`"a"` is a member — the number member's coercion failure is swallowed and the
scan reaches the string member — and `["a"]` is a subset. -/
theorem c6_membership_scan_witness :
    (∀ i ∈ itemsAB, isRecoverable (Operand.equals i (PyValue.str "a") ctx0) = true) ∧
    setBelongsTo itemsAB (PyValue.str "a") ctx0 = Except.ok true ∧
    setIsSubset itemsAB (PyValue.list [PyValue.str "a"]) ctx0 = Except.ok true := by
  have h1 : ∀ i ∈ itemsAB, isRecoverable (Operand.equals i (PyValue.str "a") ctx0) = true := by
    with_unfolding_all decide
  have h2 : ∀ x ∈ [PyValue.str "a"], ∀ i ∈ itemsAB,
      isRecoverable (Operand.equals i x ctx0) = true := by
    with_unfolding_all decide
  have h := c6_membership_scan itemsAB (PyValue.str "a") [PyValue.str "a"] ctx0 h1 h2
  exact ⟨h1, h.1.trans (by with_unfolding_all rfl), h.2.trans (by with_unfolding_all rfl)⟩

/-- C7.  `String(x)` stores the text form of `x` as `constant_value`;
`equals(v, ctx)` coerces `v` to text before comparing, so a String constant
compares equal to the text form of other values — in particular
`String("5").equals(5, ctx)` is true. -/
theorem c7_string_coercion (oid : Nat) (x v : PyValue) (ctx : Context) :
    stringConstantValue (stringConstructor oid x) = some (pyStrOf x) ∧
    Operand.equals (stringConstructor oid x) v ctx = Except.ok (pyStrOf v == pyStrOf x) ∧
    Operand.equals (stringConstructor 0 (PyValue.str "5")) (PyValue.int 5) ctx0 =
      Except.ok true :=
  ⟨rfl, rfl, rfl⟩

/-- Counterexample to C8 as stated: the token sequence `2 ^ 3` contains no
identifier token, yet `evaluate` yields 8 (the caret is translated to `**`
before safe evaluation) while evaluating the concatenated string `2^3`
directly as a plain numeric-literal arithmetic expression fails, since `^`
is outside the restricted grammar. -/
theorem c8_caret_counterexample :
    ((flattenList toksCaret).all (fun s => !isVariableToken ':' s) = true) ∧
    avCaret.evaluate ctx0 = some 8 ∧
    safeEval (joinChars (flattenList toksCaret)) = Option.none := by
  refine ⟨by decide, ?_, ?_⟩ <;> with_unfolding_all rfl

/-- C8 (amended).  For every token sequence containing no identifier tokens
and no `^` characters, evaluating the constructed `ArithmeticVariable` under
any context equals evaluating the concatenated token string directly: the
substitution passes substitute nothing and the power-operator translation is
the identity. -/
theorem c8_no_identifier_roundtrip (toks : PTokList) (ns : NSpace) (ctx : Context)
    (h1 : ∀ s ∈ flattenList toks, isVariableToken ':' s = false)
    (h2 : ∀ s ∈ flattenList toks, '^' ∉ s.data) :
    (ArithmeticVariable.make toks ns ':').evaluate ctx =
      safeEval (joinChars (flattenList toks)) := by
  have hrv := make_requiredVariables_eq_nil toks ns ':' h1
  have hnc : '^' ∉ joinChars (flattenList toks) := by
    intro hmem
    obtain ⟨s, hs, hcs⟩ := (mem_joinChars '^' (flattenList toks)).mp hmem
    exact h2 s hs hcs
  show safeEval ((ArithmeticVariable.make toks ns ':').postSubstitution ctx) = _
  unfold ArithmeticVariable.postSubstitution
  rw [hrv]
  show safeEval (replaceChars ['^'] ['*', '*']
    (ArithmeticVariable.make toks ns ':').fullExpression) = _
  have hfe : (ArithmeticVariable.make toks ns ':').fullExpression =
      joinChars (flattenList toks) := rfl
  rw [hfe, replaceChars, replaceCharsF_single_of_not_mem '^' ['*', '*'] _ _ hnc]

/-- Witness for C8 (amended): the identifier-free, caret-free tokens `2 + 3`
round-trip to plain evaluation, which yields 5. -/
theorem c8_no_identifier_roundtrip_witness :
    (ArithmeticVariable.make toksPlain ns0 ':').evaluate ctx0 =
      safeEval (joinChars (flattenList toksPlain)) ∧
    safeEval (joinChars (flattenList toksPlain)) = some 5 := by
  refine ⟨c8_no_identifier_roundtrip toksPlain ns0 ctx0 (by decide) (by decide), ?_⟩
  with_unfolding_all rfl

/-- Counterexample to C9 as stated: the claim asserts that two sets built
from distinct but structurally equal constant members fail the equivalence
check with an `AssertionError`, the member comparison being object identity.
Under the structural operand equality inherited from the base class (modelled
from the spec), two singleton sets whose members are distinct `String "a"`
objects pass `check_equivalence` instead. -/
theorem c9_structurally_equal_members_pass :
    checkEquivalenceSet (Operand.set 0 [Operand.string 1 "a"])
      (Operand.set 9 [Operand.string 2 "a"]) = Except.ok () := by
  have hcm : consumeMatches [Operand.string 1 "a"] [Operand.string 2 "a"] = [] := by
    have h1 : opEq (Operand.string 1 "a") (Operand.string 2 "a") = true := by
      simp [opEq]
    simp [consumeMatches, List.eraseP_cons, h1]
  have hred : checkEquivalenceSet (Operand.set 0 [Operand.string 1 "a"])
      (Operand.set 9 [Operand.string 2 "a"]) =
      if ([Operand.string 1 "a"] : List Operand).length =
          ([Operand.string 2 "a"] : List Operand).length then
        if (consumeMatches [Operand.string 1 "a"] [Operand.string 2 "a"]).length = 0 then
          Except.ok ()
        else Except.error (PyErr.assertionError "No match for the following elements")
      else Except.error (PyErr.assertionError "Sets do not have the same cardinality") := rfl
  rw [hred, hcm]
  simp

/-- C9 (amended).  `Set.check_equivalence` matches members with the
structural operand equality inherited from the base class (same concrete
kind, same `constant_value`): for every two Sets of equal cardinality whose
members are flat String/Number constants, it succeeds iff every member of
the other set is structurally equal to a distinct, not-yet-consumed member
of this set — equivalently, iff the member lists carry the same multiset of
structural values — so structurally equal members of distinct object
identity match, while equal-cardinality sets with disjoint elements fail
with an `AssertionError` naming the unmatched elements. -/
theorem c9_check_equivalence_structural_matching (i j : Nat)
    (selfItems nodeItems : List Operand)
    (h : selfItems.length = nodeItems.length)
    (hself : ∀ u ∈ selfItems, isFlat u = true)
    (hnode : ∀ u ∈ nodeItems, isFlat u = true) :
    checkEquivalenceSet (Operand.set i selfItems) (Operand.set j nodeItems) =
        Except.ok () ↔
      ((nodeItems.map structKey : Multiset SKey) =
        (selfItems.map structKey)) := by
  have hred : checkEquivalenceSet (Operand.set i selfItems) (Operand.set j nodeItems) =
      if selfItems.length = nodeItems.length then
        if (consumeMatches selfItems nodeItems).length = 0 then Except.ok ()
        else Except.error (PyErr.assertionError "No match for the following elements")
      else Except.error (PyErr.assertionError "Sets do not have the same cardinality") := rfl
  rw [hred, if_pos h]
  constructor
  · intro hok
    by_cases h0 : (consumeMatches selfItems nodeItems).length = 0
    · exact (consumeMatches_empty_iff selfItems nodeItems h hself hnode).mp h0
    · rw [if_neg h0] at hok
      exact absurd hok (by simp)
  · intro heq
    rw [if_pos ((consumeMatches_empty_iff selfItems nodeItems h hself hnode).mpr heq)]

/-- Witness for C9 (amended): two equal-cardinality singleton sets with
disjoint elements — `String "a"` against `String "b"` — fail the equivalence
check with the `AssertionError` naming the unmatched elements. -/
theorem c9_check_equivalence_structural_matching_witness :
    checkEquivalenceSet (Operand.set 0 [Operand.string 1 "a"])
        (Operand.set 9 [Operand.string 2 "b"]) =
      Except.error (PyErr.assertionError "No match for the following elements") ∧
    ¬(checkEquivalenceSet (Operand.set 0 [Operand.string 1 "a"])
        (Operand.set 9 [Operand.string 2 "b"]) = Except.ok ()) := by
  have hcm : consumeMatches [Operand.string 1 "a"] [Operand.string 2 "b"] =
      [Operand.string 1 "a"] := by
    have h1 : opEq (Operand.string 1 "a") (Operand.string 2 "b") = false := by
      simp [opEq]
    simp [consumeMatches, List.eraseP_cons, h1]
  constructor
  · have hred : checkEquivalenceSet (Operand.set 0 [Operand.string 1 "a"])
        (Operand.set 9 [Operand.string 2 "b"]) =
        if ([Operand.string 1 "a"] : List Operand).length =
            ([Operand.string 2 "b"] : List Operand).length then
          if (consumeMatches [Operand.string 1 "a"] [Operand.string 2 "b"]).length = 0 then
            Except.ok ()
          else Except.error (PyErr.assertionError "No match for the following elements")
        else Except.error (PyErr.assertionError "Sets do not have the same cardinality") := rfl
    rw [hred, hcm]
    simp
  · intro hok
    have hm := (c9_check_equivalence_structural_matching 0 9
      [Operand.string 1 "a"] [Operand.string 2 "b"] rfl
      (by intro u hu; rcases List.mem_singleton.mp hu with h; rw [h]; rfl)
      (by intro u hu; rcases List.mem_singleton.mp hu with h; rw [h]; rfl)).mp hok
    have hne : ¬(([SKey.strK "b"] : Multiset SKey) =
        ([SKey.strK "a"] : Multiset SKey)) := by decide
    exact hne hm

/-- C10.  `Set.less_than` and `Set.greater_than` never consult the context:
for any integer `k` and any two contexts, the results coincide, because the
compared cardinality is the stored member count fixed at construction. -/
theorem c10_cardinality_comparisons_context_free (items : List Operand) (k : Int)
    (c1 c2 : Context) :
    setLessThan items (PyValue.int k) c1 = setLessThan items (PyValue.int k) c2 ∧
    setGreaterThan items (PyValue.int k) c1 = setGreaterThan items (PyValue.int k) c2 :=
  ⟨rfl, rfl⟩

end Booleano
